import Mathlib

/-!
# MoneyInOne — portfolio valuation and currency-conversion engine

Shallow embedding of the valuation / conversion / aggregation core of the
MoneyInOne backend (`app/services/finance_service.py` and
`app/services/market_data_service.py`), together with theorems checking the
natural-language specification against it.

Conventions of the embedding:
* Python `Decimal` (arbitrary-precision decimal arithmetic) is modelled as `ℚ`.
* Python truthiness of optional strings / optional decimals is modelled by
  `strTruthy` / `ratTruthy` (`None`, `""` and `0` are falsy).
* The market-data layer (`MarketDataService`) is modelled at two levels:
  - `MarketEnv`: the cache-then-adapter price lookups as pure functions
    returning `Option ℚ` ("fixed price/rate inputs" in the spec's words);
  - `Cache`/`get_with_cache`: the explicit Redis-cache read/write logic of
    `MarketDataService._get_with_cache`, for the claims about zero handling.
* Exceptions raised by a per-asset refresh task are modelled by `Except`:
  the task function returns `Except.error ()` where the Python coroutine
  would raise.
-/

namespace MoneyInOne

/-- Python truthiness of an optional string (`None` and `""` are falsy). -/
def strTruthy : Option String → Bool
  | none => false
  | some s => !(s == "")

/-- Python truthiness of an optional `Decimal` (`None` and `0` are falsy). -/
def ratTruthy : Option ℚ → Bool
  | none => false
  | some x => !(x == 0)

/-- The pure price/rate inputs visible through the cache-then-adapter lookups
of `MarketDataService`: `get_stock_price`, `get_crypto_price`,
`get_commodity_price` and the adapter-level exchange-rate fetch.
`none` models "unavailable". -/
structure MarketEnv where
  stock : String → Option ℚ
  crypto : String → Option ℚ
  commodity : String → Option ℚ
  fx : String → String → Option ℚ

/-- `MarketDataService.get_exchange_rate`: a same-currency request
short-circuits to rate 1.0 without consulting cache or adapter; otherwise the
cache-then-adapter lookup (modelled by `env.fx`) is used. -/
def get_exchange_rate (env : MarketEnv) (fromC toC : String) : Option ℚ :=
  if fromC = toC then some 1 else env.fx fromC toC

/-- A holding (asset or credit) as seen by the valuation engine.  Credits have
`symbol = none` and `shares = none` (the Python code reads them via
`getattr(item, "symbol", None)`, which yields `None` for credits). -/
structure Item where
  id : String
  category : String
  currency : String
  amount : ℚ
  symbol : Option String
  shares : Option ℚ
  is_market_tracked : Bool
deriving DecidableEq

/-- The categories admitted by `FinanceService._compute_native_amount`'s
`category in {"stock", "crypto", "gold", "silver"}` test. -/
def eligibleCategory (c : String) : Bool :=
  (c == "stock") || (c == "crypto") || (c == "gold") || (c == "silver")

/-- The per-category price lookup performed inside
`FinanceService._compute_native_amount`: stocks via `get_stock_price`,
crypto via `get_crypto_price`, gold/silver via `get_commodity_price`
(keyed by the category name, not the symbol). -/
def lookupPrice (env : MarketEnv) (category : String) (symbol : String) : Option ℚ :=
  if category = "stock" then env.stock symbol
  else if category = "crypto" then env.crypto symbol
  else if category = "gold" ∨ category = "silver" then env.commodity category
  else none

/-- `FinanceService._compute_native_amount`: if the item has a truthy symbol,
truthy shares and an eligible category, the market price is looked up and, when
a price is obtained, the native value is `price * shares`; in every other case
the stored `amount` field is returned unchanged. -/
def compute_native_amount (env : MarketEnv) (item : Item) : ℚ :=
  if strTruthy item.symbol && ratTruthy item.shares && eligibleCategory item.category then
    match lookupPrice env item.category (item.symbol.getD "") with
    | some price => price * item.shares.getD 0
    | none => item.amount
  else item.amount

/-- `FinanceService._convert_to_base_currency`: same currency short-circuits to
`(amount, 1)`; otherwise the exchange rate is looked up and, when truthy,
applied; an unavailable (or zero) rate falls open to `(amount, 1)`.
(The Python `except` branch behaves identically to the unavailable branch.) -/
def convert_to_base_currency (env : MarketEnv) (amount : ℚ) (fromC toC : String) : ℚ × ℚ :=
  if fromC = toC then (amount, 1)
  else
    let r := get_exchange_rate env fromC toC
    if ratTruthy r then (amount * r.getD 0, r.getD 0) else (amount, 1)

/-- Per-item valuation pipeline used by both aggregation entry points:
native valuation followed by conversion to the base currency.
Returns `(converted_amount, conversion_rate)`. -/
def value_item (env : MarketEnv) (base : String) (item : Item) : ℚ × ℚ :=
  convert_to_base_currency env (compute_native_amount env item) item.currency base

/-- The converted amount of an item (first component of `value_item`). -/
def converted (env : MarketEnv) (base : String) (item : Item) : ℚ :=
  (value_item env base item).1

/-! ## Aggregation: `_group_and_convert_items` and `_calculate_category_summary`

The Python code accumulates an insertion-ordered dict per category.  The dicts
are modelled as total functions from category strings (`dict.get(c, default)`
semantics, where a category never touched keeps the default), together with the
insertion-ordered key list `cats`. -/

/-- Result state of `FinanceService._group_and_convert_items`: per-category
bucket of `(item, converted_amount, conversion_rate)` entries in insertion
order, per-category running total, and the category keys in insertion order. -/
structure GroupResult where
  buckets : String → List (Item × ℚ × ℚ)
  totals : String → ℚ
  cats : List String

/-- One iteration of the loop in `FinanceService._group_and_convert_items`:
value the item, append it (with conversion data) to its category's bucket and
add the converted amount to the category total. -/
def group_step (env : MarketEnv) (base : String) (st : GroupResult) (item : Item) :
    GroupResult :=
  let c := item.category
  let v := value_item env base item
  { buckets := fun k => if k = c then st.buckets c ++ [(item, v)] else st.buckets k
    totals := fun k => if k = c then st.totals c + v.1 else st.totals k
    cats := if st.cats.contains c then st.cats else st.cats ++ [c] }

/-- `FinanceService._group_and_convert_items`: fold of `group_step` over the
item list, starting from empty buckets and zero totals.  The per-category
`count` of the returned breakdown is `(buckets c).length` (`len(items_list)`
in the source). -/
def group_and_convert_items (env : MarketEnv) (base : String) (items : List Item) :
    GroupResult :=
  items.foldl (group_step env base) ⟨fun _ => [], fun _ => 0, []⟩

/-- Result state of `FinanceService._calculate_category_summary`: per-category
totals and counts plus the grand total over all items. -/
structure SummaryState where
  totals : String → ℚ
  counts : String → Nat
  cats : List String
  total_amount : ℚ

/-- One iteration of the loop in `FinanceService._calculate_category_summary`:
value the item, add the converted amount to its category total and the grand
total, and bump its category count. -/
def summary_step (env : MarketEnv) (base : String) (st : SummaryState) (item : Item) :
    SummaryState :=
  let c := item.category
  let conv := (value_item env base item).1
  { totals := fun k => if k = c then st.totals c + conv else st.totals k
    counts := fun k => if k = c then st.counts c + 1 else st.counts k
    cats := if st.cats.contains c then st.cats else st.cats ++ [c]
    total_amount := st.total_amount + conv }

/-- `FinanceService._calculate_category_summary`: fold of `summary_step` over
the item list starting from zero totals/counts. -/
def calculate_category_summary (env : MarketEnv) (base : String) (items : List Item) :
    SummaryState :=
  items.foldl (summary_step env base) ⟨fun _ => 0, fun _ => 0, [], 0⟩

/-- `FinanceService.get_portfolio_summary`'s net worth:
`total_assets - total_credits`, both produced by
`_calculate_category_summary`. -/
def portfolio_net_worth (env : MarketEnv) (base : String)
    (assets credits : List Item) : ℚ :=
  (calculate_category_summary env base assets).total_amount
    - (calculate_category_summary env base credits).total_amount

/-! ## Refresh: `MarketDataService.update_asset_price`,
`update_multiple_assets` and `FinanceService.refresh_prices` -/

/-- The per-asset payload built by `FinanceService.refresh_prices`
(`assets_data` entries). -/
structure AssetData where
  id : String
  category : String
  symbol : Option String
  shares : ℚ
  currency : String
  amount : ℚ
deriving DecidableEq

/-- The `(success, market_price, current_amount)` triple returned by
`MarketDataService.update_asset_price`. -/
abbrev Outcome := Bool × Option ℚ × Option ℚ

/-- `MarketDataService.update_asset_price`: fail on a missing symbol or an
unsupported category; fetch the price (stock, gold and silver all use
`get_stock_price`; crypto uses `get_crypto_price`), failing on a falsy
(missing or zero) price; compute `price * shares`; and, when the asset's
currency differs from the requested base currency, multiply by the exchange
rate when one is available. -/
def update_asset_price (env : MarketEnv) (a : AssetData) (base : String) : Outcome :=
  if !(strTruthy a.symbol) then (false, none, none)
  else if !(eligibleCategory a.category) then (false, none, none)
  else
    let fetched :=
      if a.category = "crypto" then env.crypto (a.symbol.getD "")
      else env.stock (a.symbol.getD "")
    if ratTruthy fetched then
      let price := fetched.getD 0
      let amt0 := price * a.shares
      let amt :=
        if a.currency = base then amt0
        else
          let r := get_exchange_rate env a.currency base
          if ratTruthy r then amt0 * r.getD 0 else amt0
      (true, some price, some amt)
    else (false, none, none)

/-- The result of one per-asset refresh task, as `asyncio.gather(...,
return_exceptions=True)` sees it: either an `Outcome` or a raised exception
(modelled by `Except.error ()`). -/
def outcomeOf (runTask : AssetData → Except Unit Outcome) (a : AssetData) : Outcome :=
  match runTask a with
  | Except.error _ => (false, none, none)
  | Except.ok r => r

/-- `MarketDataService.update_multiple_assets`: run one task per input asset
concurrently and map each asset id to its outcome, collapsing a raised
exception to the failure outcome `(False, None, None)`. -/
def update_multiple_assets (runTask : AssetData → Except Unit Outcome)
    (assetsData : List AssetData) : List (String × Outcome) :=
  assetsData.map (fun a => (a.id, outcomeOf runTask a))

/-- A persisted asset row, restricted to the fields `refresh_prices` reads or
writes.  `last_price_update` is an abstract timestamp. -/
structure Asset where
  id : String
  category : String
  currency : String
  amount : ℚ
  symbol : Option String
  shares : Option ℚ
  is_market_tracked : Bool
  original_amount : Option ℚ
  current_amount : Option ℚ
  last_price_update : Option Nat
deriving DecidableEq

/-- The `assets_data` entry built for one asset in
`FinanceService.refresh_prices` (`float(asset.shares) if asset.shares else
1.0` for the share count). -/
def toAssetData (a : Asset) : AssetData :=
  { id := a.id, category := a.category, symbol := a.symbol
    shares := if ratTruthy a.shares then a.shares.getD 1 else 1
    currency := a.currency, amount := a.amount }

/-- The `{"updated", "failed", "skipped"}` counts returned by
`FinanceService.refresh_prices`. -/
structure RefreshCounts where
  updated : Nat
  failed : Nat
  skipped : Nat
deriving DecidableEq

/-- The in-place mutation `refresh_prices` performs on one asset whose price
result was found: on success, initialize `original_amount` if unset, overwrite
the `current_amount` snapshot, and stamp `last_price_update`; on failure leave
the row untouched. -/
def apply_price_result (now : Nat) (a : Asset) (r : Outcome) : Asset :=
  if r.1 then
    { a with
      original_amount := match a.original_amount with
        | none => some a.amount
        | some x => some x
      current_amount := r.2.2
      last_price_update := some now }
  else a

/-- The asset-selection query of `FinanceService.refresh_prices`: all of the
user's market-tracked assets, further filtered by the requested ids when a
non-empty id list is given (Python `if asset_ids:` treats an empty list as
no filter). -/
def selectAssets (assets : List Asset) (ids : Option (List String)) : List Asset :=
  assets.filter (fun a => a.is_market_tracked &&
    (match ids with
     | none => true
     | some l => if l.isEmpty then true else l.contains a.id))

/-- The update loop of `FinanceService.refresh_prices` over the selected
assets: look each asset's id up in the price results; a missing id is passed
over; a hit either applies the update (counting it updated) or counts it
failed.  Returns the post-state of the selected assets together with the
updated and failed counts. -/
def refresh_loop (now : Nat) (pr : List (String × Outcome)) :
    List Asset → List Asset × Nat × Nat
  | [] => ([], 0, 0)
  | a :: rest =>
    let tail := refresh_loop now pr rest
    match List.lookup a.id pr with
    | none => (a :: tail.1, tail.2.1, tail.2.2)
    | some r =>
      if r.1 then (apply_price_result now a r :: tail.1, tail.2.1 + 1, tail.2.2)
      else (a :: tail.1, tail.2.1, tail.2.2 + 1)

/-- `FinanceService.refresh_prices`: select the market-tracked assets, build
the per-asset payloads for those having a symbol, fan the refresh tasks out
via `update_multiple_assets`, and fold the results back into the rows.
`skipped` is `len(assets) - len(assets_data)` — the selected assets without a
symbol.  Returns the post-state of the selected assets and the counts. -/
def refresh_prices (runTask : AssetData → Except Unit Outcome) (now : Nat)
    (assets : List Asset) (ids : Option (List String)) :
    List Asset × RefreshCounts :=
  let selected := selectAssets assets ids
  if selected.isEmpty then ([], ⟨0, 0, 0⟩)
  else
    let assetsData := (selected.filter (fun a => strTruthy a.symbol)).map toAssetData
    let pr := update_multiple_assets runTask assetsData
    let res := refresh_loop now pr selected
    (res.1, ⟨res.2.1, res.2.2, selected.length - assetsData.length⟩)

/-! ## The explicit cache layer: `MarketDataService._get_with_cache` -/

/-- The Redis price cache, modelled as an association list with lookup-first
semantics (a `setex` prepends, shadowing any older entry). -/
abbrev Cache := List (String × ℚ)

/-- `MarketDataService._get_cached_price` on the modelled cache. -/
def cacheGet (c : Cache) (key : String) : Option ℚ :=
  List.lookup key c

/-- `MarketDataService._get_with_cache`, with the adapter call's result passed
in as `fetched`: return the cached value only when truthy (a cached zero is a
miss); otherwise return the fetched value, writing it to the cache only when
it is truthy (a fetched zero or `None` is never cached). -/
def get_with_cache (c : Cache) (key : String) (fetched : Option ℚ) : Option ℚ × Cache :=
  let cached := cacheGet c key
  if ratTruthy cached then (cached, c)
  else if ratTruthy fetched then (fetched, (key, fetched.getD 0) :: c)
  else (fetched, c)

/-! ## Concrete fixtures used by witnesses and counterexamples -/

/-- A market environment in which every lookup is unavailable. -/
def envNone : MarketEnv :=
  ⟨fun _ => none, fun _ => none, fun _ => none, fun _ _ => none⟩

/-- Stock price AAPL ↦ 5, everything else unavailable. -/
def envAAPL5 : MarketEnv :=
  ⟨fun s => if s = "AAPL" then some 5 else none,
   fun _ => none, fun _ => none, fun _ _ => none⟩

/-- Stock price AAPL ↦ 200 and exchange rate USD→CNY ↦ 7. -/
def envRefresh : MarketEnv :=
  ⟨fun s => if s = "AAPL" then some 200 else none,
   fun _ => none, fun _ => none,
   fun f t => if f = "USD" ∧ t = "CNY" then some 7 else none⟩

/-- Stock price ZZ ↦ 0 (a fetched zero), everything else unavailable. -/
def envZero : MarketEnv :=
  ⟨fun s => if s = "ZZ" then some 0 else none,
   fun _ => none, fun _ => none, fun _ _ => none⟩

/-- A plain EUR cash holding (no market fields). -/
def itemEURCash : Item :=
  { id := "e1", category := "cash", currency := "EUR", amount := 100,
    symbol := none, shares := none, is_market_tracked := false }

/-- A market-tracked stock holding whose price will be unavailable. -/
def itemStock : Item :=
  { id := "s1", category := "stock", currency := "USD", amount := 1000,
    symbol := some "AAPL", shares := some 3, is_market_tracked := true }

/-- A stock holding with symbol, shares and an eligible category whose
market-tracked flag is false. -/
def itemUntracked : Item :=
  { id := "u1", category := "stock", currency := "USD", amount := 100,
    symbol := some "AAPL", shares := some 3, is_market_tracked := false }

/-- A market-tracked USD stock asset row (amount 300, 3 shares of AAPL). -/
def assetAAPL : Asset :=
  { id := "a1", category := "stock", currency := "USD", amount := 300,
    symbol := some "AAPL", shares := some 3, is_market_tracked := true,
    original_amount := none, current_amount := none, last_price_update := none }

/-- A market-tracked asset without a symbol (refresh must skip it). -/
def assetNoSym : Asset :=
  { id := "n1", category := "stock", currency := "USD", amount := 50,
    symbol := none, shares := none, is_market_tracked := true,
    original_amount := none, current_amount := none, last_price_update := none }

/-- A market-tracked asset whose symbol has no quote (refresh must fail it). -/
def assetBadSym : Asset :=
  { id := "b1", category := "stock", currency := "USD", amount := 70,
    symbol := some "XXX", shares := some 2, is_market_tracked := true,
    original_amount := none, current_amount := none, last_price_update := none }

/-- A market-tracked asset whose symbol quotes at exactly zero. -/
def assetZeroPrice : Asset :=
  { id := "z1", category := "stock", currency := "USD", amount := 80,
    symbol := some "ZZ", shares := some 4, is_market_tracked := true,
    original_amount := none, current_amount := none, last_price_update := none }

/-- The expected post-state of `assetAAPL` after a refresh against base
currency CNY at price 200 and rate 7: the snapshot holds the base-currency
value 200 × 3 × 7 = 4200, not the native-currency value 600. -/
def assetAAPLRefreshedCNY : Asset :=
  { id := "a1", category := "stock", currency := "USD", amount := 300,
    symbol := some "AAPL", shares := some 3, is_market_tracked := true,
    original_amount := some 300, current_amount := some 4200,
    last_price_update := some 1 }

/-- The refresh task as `refresh_prices` actually runs it: one
`update_asset_price` call per asset, no exception. -/
def runUpdate (env : MarketEnv) (base : String) :
    AssetData → Except Unit Outcome :=
  fun d => Except.ok (update_asset_price env d base)

/-- A refresh task that raises (models a coroutine whose awaited call throws). -/
def runRaise : AssetData → Except Unit Outcome :=
  fun _ => Except.error ()

/-! ## Characterization lemmas for the aggregation folds -/

/-- The bucket of category `c` after the grouping fold is the original bucket
followed by the valued items of category `c`, in input order. -/
theorem group_buckets_spec (env : MarketEnv) (base : String) (items : List Item)
    (st : GroupResult) (c : String) :
    ((items.foldl (group_step env base) st).buckets c)
      = st.buckets c
        ++ (items.filter (fun i => i.category == c)).map
            (fun i => (i, value_item env base i)) := by
  induction items generalizing st with
  | nil => simp
  | cons a l ih =>
    simp only [List.foldl_cons, List.filter_cons]
    rw [ih]
    by_cases h : a.category = c
    · simp [group_step, h]
    · simp [group_step, h, Ne.symm h]

/-- The total of category `c` after the grouping fold. -/
theorem group_totals_spec (env : MarketEnv) (base : String) (items : List Item)
    (st : GroupResult) (c : String) :
    ((items.foldl (group_step env base) st).totals c)
      = st.totals c
        + ((items.filter (fun i => i.category == c)).map (converted env base)).sum := by
  induction items generalizing st with
  | nil => simp
  | cons a l ih =>
    simp only [List.foldl_cons, List.filter_cons]
    rw [ih]
    by_cases h : a.category = c
    · simp [group_step, h, converted, add_assoc]
    · simp [group_step, h, Ne.symm h]

/-- The total of category `c` after the summary fold. -/
theorem summary_totals_spec (env : MarketEnv) (base : String) (items : List Item)
    (st : SummaryState) (c : String) :
    ((items.foldl (summary_step env base) st).totals c)
      = st.totals c
        + ((items.filter (fun i => i.category == c)).map (converted env base)).sum := by
  induction items generalizing st with
  | nil => simp
  | cons a l ih =>
    simp only [List.foldl_cons, List.filter_cons]
    rw [ih]
    by_cases h : a.category = c
    · simp [summary_step, h, converted, add_assoc]
    · simp [summary_step, h, Ne.symm h]

/-- The count of category `c` after the summary fold. -/
theorem summary_counts_spec (env : MarketEnv) (base : String) (items : List Item)
    (st : SummaryState) (c : String) :
    ((items.foldl (summary_step env base) st).counts c)
      = st.counts c + (items.filter (fun i => i.category == c)).length := by
  induction items generalizing st with
  | nil => simp
  | cons a l ih =>
    simp only [List.foldl_cons, List.filter_cons]
    rw [ih]
    by_cases h : a.category = c
    · simp [summary_step, h, Nat.add_assoc, Nat.add_comm 1]
    · simp [summary_step, h, Ne.symm h]

/-- The grand total after the summary fold is the sum of all converted
amounts, regardless of category. -/
theorem summary_total_amount_spec (env : MarketEnv) (base : String)
    (items : List Item) (st : SummaryState) :
    ((items.foldl (summary_step env base) st).total_amount)
      = st.total_amount + (items.map (converted env base)).sum := by
  induction items generalizing st with
  | nil => simp
  | cons a l ih =>
    simp only [List.foldl_cons, List.map_cons]
    rw [ih]
    simp [summary_step, converted, add_assoc]

/-! ## Characterization lemmas for the refresh loop -/

/-- The asset's id is found in the price results with a successful outcome. -/
def hitSuccess (pr : List (String × Outcome)) (a : Asset) : Bool :=
  match List.lookup a.id pr with
  | some r => r.1
  | none => false

/-- The asset's id is found in the price results with a failed outcome. -/
def hitFailure (pr : List (String × Outcome)) (a : Asset) : Bool :=
  match List.lookup a.id pr with
  | some r => !r.1
  | none => false

/-- `refresh_loop` maps each selected asset through its (possibly absent)
price result and counts the successful and failed hits. -/
theorem refresh_loop_spec (now : Nat) (pr : List (String × Outcome))
    (sel : List Asset) :
    refresh_loop now pr sel
      = (sel.map (fun a =>
            match List.lookup a.id pr with
            | some r => if r.1 then apply_price_result now a r else a
            | none => a),
         (sel.filter (hitSuccess pr)).length,
         (sel.filter (hitFailure pr)).length) := by
  induction sel with
  | nil => simp [refresh_loop]
  | cons a rest ih =>
    simp only [refresh_loop, ih, List.map_cons, List.filter_cons]
    cases h : List.lookup a.id pr with
    | none => simp [hitSuccess, hitFailure, h]
    | some r =>
      cases hr : r.1 with
      | true => simp [hitSuccess, hitFailure, h, hr]
      | false => simp [hitSuccess, hitFailure, h, hr]

/-- Looking a member's id up in the id-keyed association list built from a
list with no duplicate ids yields that member's value. -/
theorem lookup_map_of_mem (g : Asset → Outcome) (l : List Asset) (a : Asset)
    (hnd : (l.map Asset.id).Nodup) (ha : a ∈ l) :
    List.lookup a.id (l.map (fun b => (b.id, g b))) = some (g a) := by
  induction l with
  | nil => cases ha
  | cons b rest ih =>
    simp only [List.map_cons, List.nodup_cons] at hnd
    rcases List.mem_cons.mp ha with rfl | hmem
    · simp [List.lookup]
    · have hne : a.id ≠ b.id := by
        intro he
        exact hnd.1 (he ▸ List.mem_map_of_mem Asset.id hmem)
      have : (a.id == b.id) = false := by
        simp [hne]
      simp [List.lookup, this, ih hnd.2 hmem]

/-- Looking up an id that does not occur among the keys yields `none`. -/
theorem lookup_map_of_not_mem (g : Asset → Outcome) (l : List Asset) (x : String)
    (hx : x ∉ l.map Asset.id) :
    List.lookup x (l.map (fun b => (b.id, g b))) = none := by
  induction l with
  | nil => simp [List.lookup]
  | cons b rest ih =>
    simp only [List.map_cons, List.mem_cons, not_or] at hx
    have : (x == b.id) = false := by simp [hx.1]
    simp [List.lookup, this, ih hx.2]

/-- Characterization of the counts returned by `refresh_prices`, assuming the
selected assets carry pairwise-distinct ids (they are rows of a table keyed by
a primary key): `updated` counts the selected symbol-bearing assets whose task
outcome succeeded, `failed` those whose task outcome failed, and `skipped` the
selected assets without a truthy symbol. -/
theorem refresh_counts_spec (runTask : AssetData → Except Unit Outcome)
    (now : Nat) (assets : List Asset) (ids : Option (List String))
    (hnd : ((selectAssets assets ids).map Asset.id).Nodup) :
    (refresh_prices runTask now assets ids).2
      = ⟨((selectAssets assets ids).filter
            (fun a => strTruthy a.symbol && (outcomeOf runTask (toAssetData a)).1)).length,
         ((selectAssets assets ids).filter
            (fun a => strTruthy a.symbol && !(outcomeOf runTask (toAssetData a)).1)).length,
         ((selectAssets assets ids).filter
            (fun a => !(strTruthy a.symbol))).length⟩ := by
  set sel := selectAssets assets ids with hsel
  by_cases hemp : sel.isEmpty
  · have hnil : sel = [] := List.isEmpty_iff.mp hemp
    simp [refresh_prices, ← hsel, hnil]
  · have hpr : update_multiple_assets runTask
        ((sel.filter (fun a => strTruthy a.symbol)).map toAssetData)
        = (sel.filter (fun a => strTruthy a.symbol)).map
            (fun b => (b.id, outcomeOf runTask (toAssetData b))) := by
      unfold update_multiple_assets
      rw [List.map_map]
      rfl
    have hndf : ((sel.filter (fun a => strTruthy a.symbol)).map Asset.id).Nodup :=
      List.Sublist.nodup (List.Sublist.map Asset.id (List.filter_sublist sel)) hnd
    have hlookup : ∀ a ∈ sel,
        List.lookup a.id ((sel.filter (fun a => strTruthy a.symbol)).map
            (fun b => (b.id, outcomeOf runTask (toAssetData b))))
          = if strTruthy a.symbol then some (outcomeOf runTask (toAssetData a))
            else none := by
      intro a hmem
      by_cases hsym : strTruthy a.symbol
      · rw [if_pos hsym]
        exact lookup_map_of_mem _ _ _ hndf (List.mem_filter.mpr ⟨hmem, hsym⟩)
      · rw [if_neg hsym]
        apply lookup_map_of_not_mem
        intro hin
        rcases List.mem_map.mp hin with ⟨b, hbmem, hbid⟩
        have hb := List.mem_filter.mp hbmem
        have hab : a = b := List.inj_on_of_nodup_map hnd hmem hb.1 hbid.symm
        exact hsym (hab ▸ hb.2)
    have hsucc : sel.filter (hitSuccess
          ((sel.filter (fun a => strTruthy a.symbol)).map
            (fun b => (b.id, outcomeOf runTask (toAssetData b)))))
        = sel.filter
            (fun a => strTruthy a.symbol && (outcomeOf runTask (toAssetData a)).1) := by
      apply List.filter_congr
      intro a hmem
      unfold hitSuccess
      rw [hlookup a hmem]
      by_cases hsym : strTruthy a.symbol
      · rw [if_pos hsym]
        simp [hsym]
      · rw [if_neg hsym]
        simp [hsym]
    have hfail : sel.filter (hitFailure
          ((sel.filter (fun a => strTruthy a.symbol)).map
            (fun b => (b.id, outcomeOf runTask (toAssetData b)))))
        = sel.filter
            (fun a => strTruthy a.symbol && !(outcomeOf runTask (toAssetData a)).1) := by
      apply List.filter_congr
      intro a hmem
      unfold hitFailure
      rw [hlookup a hmem]
      by_cases hsym : strTruthy a.symbol
      · rw [if_pos hsym]
        simp [hsym]
      · rw [if_neg hsym]
        simp [hsym]
    have hskip : sel.length
          - ((sel.filter (fun a => strTruthy a.symbol)).map toAssetData).length
        = (sel.filter (fun a => !(strTruthy a.symbol))).length := by
      rw [List.length_map, List.length_eq_length_filter_add
        (l := sel) (fun a => strTruthy a.symbol)]
      omega
    rw [show refresh_prices runTask now assets ids
        = (let assetsData := (sel.filter (fun a => strTruthy a.symbol)).map toAssetData
           let pr := update_multiple_assets runTask assetsData
           let res := refresh_loop now pr sel
           (res.1, ⟨res.2.1, res.2.2, sel.length - assetsData.length⟩))
      from by
        unfold refresh_prices
        rw [← hsel, if_neg hemp]]
    simp only [refresh_loop_spec, hpr]
    rw [RefreshCounts.mk.injEq]
    exact ⟨by rw [hsucc], by rw [hfail], hskip⟩

/-- `None` is falsy. -/
theorem ratTruthy_none : ratTruthy none = false := rfl

/-- A present zero is falsy (Python `Decimal(0)` truthiness). -/
theorem ratTruthy_some_zero : ratTruthy (some 0) = false := by
  simp [ratTruthy]

/-- A present non-zero value is truthy. -/
theorem ratTruthy_some_ne (x : ℚ) (h : x ≠ 0) : ratTruthy (some x) = true := by
  simp [ratTruthy, h]

/-- Splitting a list by a predicate `p` and, within `p`, by `q`, accounts for
every element exactly once. -/
theorem three_way_split_length (p q : Asset → Bool) (l : List Asset) :
    (l.filter (fun a => p a && q a)).length
      + (l.filter (fun a => p a && !q a)).length
      + (l.filter (fun a => !(p a))).length = l.length := by
  induction l with
  | nil => simp
  | cons a t ih =>
    simp only [List.filter_cons]
    by_cases hp : p a
    · by_cases hq : q a
      · simp only [hp, hq]
        simp
        omega
      · simp only [hp, hq]
        simp
        omega
    · simp only [hp]
      simp
      omega

/-! ## Claims -/

/-- C3: for every set of asset holdings and credit holdings and every base
currency, the portfolio summary's net worth equals exactly the sum of all
converted asset values minus the sum of all converted credit values; the
per-category grouping does not enter the total (the grand total is the plain
sum over all holdings regardless of their categories). -/
theorem C3_net_worth_sum (env : MarketEnv) (base : String)
    (assets credits : List Item) :
    portfolio_net_worth env base assets credits
      = (assets.map (converted env base)).sum - (credits.map (converted env base)).sum
    ∧ (calculate_category_summary env base assets).total_amount
      = (assets.map (converted env base)).sum
    ∧ (calculate_category_summary env base credits).total_amount
      = (credits.map (converted env base)).sum := by
  have h : ∀ l : List Item,
      (calculate_category_summary env base l).total_amount
        = (l.map (converted env base)).sum := by
    intro l
    unfold calculate_category_summary
    rw [summary_total_amount_spec]
    simp
  exact ⟨by unfold portfolio_net_worth; rw [h, h], h assets, h credits⟩

/-- C5: for every holding whose native currency equals the requested base
currency, the conversion short-circuits to rate exactly 1 and an unchanged
amount; the result does not depend on the market environment at all (no price
cache or adapter call enters the computation), and
`MarketDataService.get_exchange_rate` likewise short-circuits to rate 1. -/
theorem C5_same_currency_short_circuit (env env2 : MarketEnv) (amt : ℚ) (c : String) :
    convert_to_base_currency env amt c c = (amt, 1)
    ∧ convert_to_base_currency env amt c c = convert_to_base_currency env2 amt c c
    ∧ get_exchange_rate env c c = some 1 := by
  refine ⟨?_, ?_, ?_⟩ <;> simp [convert_to_base_currency, get_exchange_rate]

/-- C4: for every holding whose native currency differs from the base currency,
if the exchange-rate lookup is unavailable, the conversion returns the native
value unchanged with a reported rate of exactly 1 (fail-open), and the holding
still lands in its category bucket of the grouped result (it is not dropped;
the computation is a total function, so no error is raised). -/
theorem C4_fail_open_conversion (env : MarketEnv) (base : String) (item : Item)
    (items : List Item) (hne : item.currency ≠ base)
    (hun : env.fx item.currency base = none) (hmem : item ∈ items) :
    value_item env base item = (compute_native_amount env item, 1)
    ∧ (item, compute_native_amount env item, 1)
        ∈ (group_and_convert_items env base items).buckets item.category := by
  have hv : value_item env base item = (compute_native_amount env item, 1) := by
    unfold value_item convert_to_base_currency
    rw [if_neg hne]
    simp [get_exchange_rate, hne, hun, ratTruthy]
  refine ⟨hv, ?_⟩
  unfold group_and_convert_items
  rw [group_buckets_spec]
  refine List.mem_append.mpr (Or.inr ?_)
  exact List.mem_map.mpr ⟨item, List.mem_filter.mpr ⟨hmem, by simp⟩, by simp [hv]⟩

/-- C4 witness: a concrete EUR cash holding valued against base USD in an
environment with no exchange rates is converted fail-open with rate 1 and kept
in the "cash" bucket. -/
theorem C4_fail_open_conversion_witness :
    value_item envNone "USD" itemEURCash = (compute_native_amount envNone itemEURCash, 1)
    ∧ (itemEURCash, compute_native_amount envNone itemEURCash, 1)
        ∈ (group_and_convert_items envNone "USD" [itemEURCash]).buckets
            itemEURCash.category :=
  C4_fail_open_conversion envNone "USD" itemEURCash [itemEURCash]
    (by decide) rfl (by simp)

/-- C6: a market-tracked holding with symbol, shares and an eligible category
whose price lookup is unavailable falls back to its stored amount (the
valuation is a total function, so nothing is raised), and the holding still
appears in its category bucket of the grouped-by-category result. -/
theorem C6_unavailable_price_fallback (env : MarketEnv) (base : String)
    (item : Item) (items : List Item)
    (htr : item.is_market_tracked = true)
    (hs : strTruthy item.symbol = true)
    (hsh : ratTruthy item.shares = true)
    (hc : eligibleCategory item.category = true)
    (hun : lookupPrice env item.category (item.symbol.getD "") = none)
    (hmem : item ∈ items) :
    compute_native_amount env item = item.amount
    ∧ (item, value_item env base item)
        ∈ (group_and_convert_items env base items).buckets item.category := by
  constructor
  · unfold compute_native_amount
    rw [if_pos (by simp [hs, hsh, hc]), hun]
  · unfold group_and_convert_items
    rw [group_buckets_spec]
    refine List.mem_append.mpr (Or.inr ?_)
    exact List.mem_map.mpr ⟨item, List.mem_filter.mpr ⟨hmem, by simp⟩, rfl⟩

/-- C6 witness: a concrete market-tracked AAPL holding in an environment with
no prices degrades to its stored amount and stays in the "stock" bucket. -/
theorem C6_unavailable_price_fallback_witness :
    compute_native_amount envNone itemStock = itemStock.amount
    ∧ (itemStock, value_item envNone "USD" itemStock)
        ∈ (group_and_convert_items envNone "USD" [itemStock]).buckets
            itemStock.category :=
  C6_unavailable_price_fallback envNone "USD" itemStock [itemStock]
    rfl rfl rfl rfl rfl (by simp)

/-- C8: for a fixed base currency and fixed price/rate inputs the aggregation
is deterministic (it is a pure function of its inputs) and order-independent:
permuting the holdings leaves every per-category total and count of both the
grouped view and the summary, the grand totals, and the net worth unchanged
(exactly, in the `ℚ` model of `Decimal` arithmetic). -/
theorem C8_order_independence (env : MarketEnv) (base : String)
    (assets assets2 credits credits2 : List Item)
    (ha : List.Perm assets assets2) (hc : List.Perm credits credits2) :
    (∀ cat, (group_and_convert_items env base assets).totals cat
        = (group_and_convert_items env base assets2).totals cat)
    ∧ (∀ cat, ((group_and_convert_items env base assets).buckets cat).length
        = ((group_and_convert_items env base assets2).buckets cat).length)
    ∧ (∀ cat, (calculate_category_summary env base assets).totals cat
        = (calculate_category_summary env base assets2).totals cat)
    ∧ (∀ cat, (calculate_category_summary env base assets).counts cat
        = (calculate_category_summary env base assets2).counts cat)
    ∧ (calculate_category_summary env base assets).total_amount
        = (calculate_category_summary env base assets2).total_amount
    ∧ portfolio_net_worth env base assets credits
        = portfolio_net_worth env base assets2 credits2 := by
  have hsum : ∀ (l1 l2 : List Item), List.Perm l1 l2 → ∀ cat,
      ((l1.filter (fun i => i.category == cat)).map (converted env base)).sum
        = ((l2.filter (fun i => i.category == cat)).map (converted env base)).sum := by
    intro l1 l2 h cat
    exact List.Perm.sum_eq (List.Perm.map _ (List.Perm.filter _ h))
  have hlen : ∀ (l1 l2 : List Item), List.Perm l1 l2 → ∀ cat,
      (l1.filter (fun i => i.category == cat)).length
        = (l2.filter (fun i => i.category == cat)).length := by
    intro l1 l2 h cat
    exact List.Perm.length_eq (List.Perm.filter _ h)
  have htot : ∀ (l1 l2 : List Item), List.Perm l1 l2 →
      (calculate_category_summary env base l1).total_amount
        = (calculate_category_summary env base l2).total_amount := by
    intro l1 l2 h
    unfold calculate_category_summary
    rw [summary_total_amount_spec, summary_total_amount_spec]
    exact congrArg _ (List.Perm.sum_eq (List.Perm.map _ h))
  refine ⟨?_, ?_, ?_, ?_, htot _ _ ha, ?_⟩
  · intro cat
    unfold group_and_convert_items
    rw [group_totals_spec, group_totals_spec]
    exact congrArg _ (hsum _ _ ha cat)
  · intro cat
    unfold group_and_convert_items
    rw [group_buckets_spec, group_buckets_spec]
    simp only [List.length_append, List.length_map]
    rw [hlen _ _ ha cat]
  · intro cat
    unfold calculate_category_summary
    rw [summary_totals_spec, summary_totals_spec]
    exact congrArg _ (hsum _ _ ha cat)
  · intro cat
    unfold calculate_category_summary
    rw [summary_counts_spec, summary_counts_spec]
    rw [hlen _ _ ha cat]
  · unfold portfolio_net_worth
    rw [htot _ _ ha, htot _ _ hc]

/-- C8 witness: swapping two concrete holdings (and two concrete credits)
changes neither the grand asset total nor the net worth nor the "stock"
category total. -/
theorem C8_order_independence_witness :
    (calculate_category_summary envAAPL5 "USD" [itemStock, itemEURCash]).total_amount
      = (calculate_category_summary envAAPL5 "USD" [itemEURCash, itemStock]).total_amount
    ∧ portfolio_net_worth envAAPL5 "USD" [itemStock, itemEURCash] [itemEURCash]
      = portfolio_net_worth envAAPL5 "USD" [itemEURCash, itemStock] [itemEURCash]
    ∧ (calculate_category_summary envAAPL5 "USD" [itemStock, itemEURCash]).totals "stock"
      = (calculate_category_summary envAAPL5 "USD" [itemEURCash, itemStock]).totals "stock" := by
  have h := C8_order_independence envAAPL5 "USD"
    [itemStock, itemEURCash] [itemEURCash, itemStock] [itemEURCash] [itemEURCash]
    (List.Perm.swap itemEURCash itemStock []) (List.Perm.refl _)
  exact ⟨h.2.2.2.2.1, h.2.2.2.2.2, h.2.2.1 "stock"⟩

/-- C1 counterexample: a holding whose market-tracked flag is false but which
has a symbol, shares and an eligible category still has its native value
derived from the market price (5 × 3 = 15), not from its stored amount (100):
`_compute_native_amount` never consults the flag, contradicting the claim. -/
theorem C1_flag_counterexample :
    itemUntracked.is_market_tracked = false
    ∧ compute_native_amount envAAPL5 itemUntracked = 15
    ∧ itemUntracked.amount = 100
    ∧ ¬ compute_native_amount envAAPL5 itemUntracked = itemUntracked.amount := by
  have h3 : ratTruthy (some (3 : ℚ)) = true := ratTruthy_some_ne 3 (by norm_num)
  have h15 : compute_native_amount envAAPL5 itemUntracked = 15 := by
    simp +decide [compute_native_amount, itemUntracked, envAAPL5, lookupPrice,
      strTruthy, eligibleCategory, h3]
    norm_num
  refine ⟨rfl, h15, rfl, ?_⟩
  rw [h15]
  show (15 : ℚ) ≠ itemUntracked.amount
  norm_num [itemUntracked]

/-- C1 amended: native valuation ignores the market-tracked flag entirely; the
precedence is: if the holding has a truthy (non-empty) symbol AND truthy
(non-zero) share count AND category in {stock, crypto, gold, silver}, then
native value = looked-up price × share count whenever the lookup yields a
price, and the stored amount otherwise; if the guard fails, the stored amount
is returned unchanged. -/
theorem C1_native_valuation_amended (env : MarketEnv) (item : Item) (b : Bool) :
    compute_native_amount env { item with is_market_tracked := b }
      = compute_native_amount env item
    ∧ ((strTruthy item.symbol && ratTruthy item.shares
          && eligibleCategory item.category) = true →
        (∀ p, lookupPrice env item.category (item.symbol.getD "") = some p →
          compute_native_amount env item = p * item.shares.getD 0)
        ∧ (lookupPrice env item.category (item.symbol.getD "") = none →
          compute_native_amount env item = item.amount))
    ∧ ((strTruthy item.symbol && ratTruthy item.shares
          && eligibleCategory item.category) = false →
        compute_native_amount env item = item.amount) := by
  refine ⟨rfl, ?_, ?_⟩
  · intro hg
    constructor
    · intro p hp
      unfold compute_native_amount
      rw [if_pos hg, hp]
    · intro hn
      unfold compute_native_amount
      rw [if_pos hg, hn]
  · intro hg
    unfold compute_native_amount
    rw [if_neg (by simp [hg])]

/-- C1 amended, witness: at a concrete environment and holding the flag value
is irrelevant and the guarded rule yields price × shares. -/
theorem C1_native_valuation_amended_witness :
    compute_native_amount envAAPL5 { itemUntracked with is_market_tracked := true }
      = compute_native_amount envAAPL5 itemUntracked
    ∧ compute_native_amount envAAPL5 itemUntracked
      = 5 * itemUntracked.shares.getD 0 := by
  have h := C1_native_valuation_amended envAAPL5 itemUntracked true
  have hg : (strTruthy itemUntracked.symbol && ratTruthy itemUntracked.shares
      && eligibleCategory itemUntracked.category) = true := by
    simp [itemUntracked, strTruthy, eligibleCategory,
      ratTruthy_some_ne 3 (by norm_num)]
  have hp : lookupPrice envAAPL5 itemUntracked.category
      (itemUntracked.symbol.getD "") = some 5 := by
    simp [itemUntracked, envAAPL5, lookupPrice]
  exact ⟨h.1, (h.2.1 hg).1 5 hp⟩

/-- C2: refresh of a market-tracked USD asset (3 shares of AAPL at price 200)
against base currency CNY (rate USD→CNY = 7) stores `current_amount = 4200` —
price × shares × fx-to-base — rather than the native-currency value
price × shares = 600 that the claim (and the code's own comments and tests)
prescribe; the original `amount` (300) is left unchanged and the timestamp is
set. -/
theorem C2_snapshot_currency_bug :
    refresh_prices (runUpdate envRefresh "CNY") 1 [assetAAPL] none
      = ([assetAAPLRefreshedCNY], ⟨1, 0, 0⟩)
    ∧ (4200 : ℚ) ≠ 200 * 3 := by
  have h200 : ratTruthy (some (200 : ℚ)) = true := ratTruthy_some_ne 200 (by norm_num)
  have h3 : ratTruthy (some (3 : ℚ)) = true := ratTruthy_some_ne 3 (by norm_num)
  have h7 : ratTruthy (some (7 : ℚ)) = true := ratTruthy_some_ne 7 (by norm_num)
  have hout : outcomeOf (runUpdate envRefresh "CNY") (toAssetData assetAAPL)
      = (true, some 200, some 4200) := by
    simp +decide [outcomeOf, runUpdate, update_asset_price, toAssetData,
      assetAAPL, envRefresh, strTruthy, eligibleCategory, get_exchange_rate,
      h200, h3, h7]
    norm_num
  have hsel : selectAssets [assetAAPL] none = [assetAAPL] := by
    simp [selectAssets, assetAAPL]
  have hfil : List.filter (fun a => strTruthy a.symbol) [assetAAPL]
      = [assetAAPL] := by
    simp [assetAAPL, strTruthy]
  have happly : apply_price_result 1 assetAAPL (true, some 200, some 4200)
      = assetAAPLRefreshedCNY := by
    simp [apply_price_result, assetAAPL, assetAAPLRefreshedCNY]
  have hid : (toAssetData assetAAPL).id = "a1" := rfl
  have hid2 : assetAAPL.id = "a1" := rfl
  refine ⟨?_, by norm_num⟩
  simp [refresh_prices, hsel, hfil, update_multiple_assets, hout,
    refresh_loop, List.lookup, happly, hid, hid2]

/-- C7: refresh always returns the three counts (it is a total function), a
selected market-tracked holding without a truthy symbol is counted as skipped
(and, the filters being disjoint, never as failed or updated), and a
symbol-bearing holding whose per-asset price task fails is counted as failed
(never as skipped).  The id-nodup hypothesis reflects that the selected assets
are rows keyed by a primary key. -/
theorem C7_refresh_count_semantics (runTask : AssetData → Except Unit Outcome)
    (now : Nat) (assets : List Asset) (ids : Option (List String))
    (hnd : ((selectAssets assets ids).map Asset.id).Nodup) :
    ((refresh_prices runTask now assets ids).2).skipped
        = ((selectAssets assets ids).filter
            (fun a => !(strTruthy a.symbol))).length
    ∧ ((refresh_prices runTask now assets ids).2).failed
        = ((selectAssets assets ids).filter
            (fun a => strTruthy a.symbol
              && !((outcomeOf runTask (toAssetData a)).1))).length
    ∧ ((refresh_prices runTask now assets ids).2).updated
        = ((selectAssets assets ids).filter
            (fun a => strTruthy a.symbol
              && (outcomeOf runTask (toAssetData a)).1)).length := by
  rw [refresh_counts_spec runTask now assets ids hnd]
  exact ⟨rfl, rfl, rfl⟩

/-- C7 witness: refreshing a symbol-less asset, an asset with an unknown
symbol and a quotable asset yields exactly one skip, one failure and one
update. -/
theorem C7_refresh_count_semantics_witness :
    ((refresh_prices (runUpdate envRefresh "USD") 2
        [assetNoSym, assetBadSym, assetAAPL] none).2).skipped = 1
    ∧ ((refresh_prices (runUpdate envRefresh "USD") 2
        [assetNoSym, assetBadSym, assetAAPL] none).2).failed = 1
    ∧ ((refresh_prices (runUpdate envRefresh "USD") 2
        [assetNoSym, assetBadSym, assetAAPL] none).2).updated = 1 := by
  have h := C7_refresh_count_semantics (runUpdate envRefresh "USD") 2
    [assetNoSym, assetBadSym, assetAAPL] none (by decide)
  refine ⟨?_, ?_, ?_⟩
  · rw [h.1]; decide
  · rw [h.2.1]; decide
  · rw [h.2.2]; decide

/-- C9: a zero price/rate is treated as absent throughout the cache-then-fetch
path — a cached zero is a cache miss (the fetched value is returned instead),
a fetched zero (or a failed fetch) is never written to the cache, and during a
refresh a fetched price of exactly zero makes `update_asset_price` fail, so
the asset is counted as failed rather than updated. -/
theorem C9_zero_treated_as_absent :
    (∀ (c : Cache) (key : String) (fetched : Option ℚ),
        cacheGet c key = some 0 → (get_with_cache c key fetched).1 = fetched)
    ∧ (∀ (c : Cache) (key : String),
        (get_with_cache c key (some 0)).2 = c
        ∧ (get_with_cache c key none).2 = c)
    ∧ (∀ (env : MarketEnv) (base : String) (now : Nat) (a : Asset),
        a.is_market_tracked = true →
        strTruthy a.symbol = true →
        a.category = "stock" →
        env.stock (a.symbol.getD "") = some 0 →
        (refresh_prices (runUpdate env base) now [a] none).2
          = ⟨0, 1, 0⟩) := by
  refine ⟨?_, ?_, ?_⟩
  · intro c key fetched h
    have hz : ratTruthy (cacheGet c key) = false := by
      rw [h]; exact ratTruthy_some_zero
    cases hf : ratTruthy fetched <;> simp [get_with_cache, hz, hf]
  · intro c key
    constructor
    · cases hc : ratTruthy (cacheGet c key) <;>
        simp [get_with_cache, hc, ratTruthy_some_zero]
    · cases hc : ratTruthy (cacheGet c key) <;>
        simp [get_with_cache, hc, ratTruthy_none]
  · intro env base now a htr hsym hcat hzero
    have hout : outcomeOf (runUpdate env base) (toAssetData a)
        = (false, none, none) := by
      simp [outcomeOf, runUpdate, update_asset_price, toAssetData, hsym, hcat,
        hzero, ratTruthy_some_zero, eligibleCategory]
    have hsel : selectAssets [a] none = [a] := by
      simp [selectAssets, htr]
    have hnd : ((selectAssets [a] none).map Asset.id).Nodup := by
      rw [hsel]; simp
    rw [refresh_counts_spec (runUpdate env base) now [a] none hnd, hsel]
    simp [hsym, hout]

/-- C9 witness: concrete cache with a zero entry, concrete fetched zero, and a
concrete refresh of an asset quoting at zero. -/
theorem C9_zero_treated_as_absent_witness :
    (get_with_cache [("k", (0 : ℚ))] "k" (some 5)).1 = some 5
    ∧ (get_with_cache [("k", (0 : ℚ))] "k" (some 0)).2 = [("k", (0 : ℚ))]
    ∧ (refresh_prices (runUpdate envZero "USD") 3 [assetZeroPrice] none).2
        = ⟨0, 1, 0⟩ := by
  have h := C9_zero_treated_as_absent
  exact ⟨h.1 _ "k" (some 5) (by decide), (h.2.1 _ "k").1,
    h.2.2 envZero "USD" 3 assetZeroPrice rfl rfl rfl (by decide)⟩

/-- C10: the concurrent fan-out returns exactly one outcome per input asset,
keyed by its id and in input order; a task that raises yields the failure
outcome `(false, none, none)` instead of propagating; and the refresh counts
satisfy `updated + failed + skipped = number of selected market-tracked
assets` (ids assumed pairwise distinct, being primary keys). -/
theorem C10_fanout_accounting (runTask : AssetData → Except Unit Outcome)
    (now : Nat) (assets : List Asset) (ids : Option (List String))
    (hnd : ((selectAssets assets ids).map Asset.id).Nodup) :
    (∀ ad : List AssetData,
        (update_multiple_assets runTask ad).map Prod.fst = ad.map AssetData.id)
    ∧ (∀ (ad : List AssetData) (d : AssetData), d ∈ ad →
        runTask d = Except.error () →
        (d.id, ((false, none, none) : Outcome)) ∈ update_multiple_assets runTask ad)
    ∧ ((refresh_prices runTask now assets ids).2).updated
        + ((refresh_prices runTask now assets ids).2).failed
        + ((refresh_prices runTask now assets ids).2).skipped
      = (selectAssets assets ids).length := by
  refine ⟨?_, ?_, ?_⟩
  · intro ad
    unfold update_multiple_assets
    rw [List.map_map]
    rfl
  · intro ad d hd he
    unfold update_multiple_assets
    refine List.mem_map.mpr ⟨d, hd, ?_⟩
    unfold outcomeOf
    rw [he]
  · rw [refresh_counts_spec runTask now assets ids hnd]
    exact three_way_split_length (fun a => strTruthy a.symbol)
      (fun a => (outcomeOf runTask (toAssetData a)).1) _

/-- C10 witness: with a task that always raises, a symbol-less asset and a
symbol-bearing asset give `0 + 1 + 1 = 2` selected assets, and the raising
task's asset maps to the failure outcome. -/
theorem C10_fanout_accounting_witness :
    ((refresh_prices runRaise 4 [assetNoSym, assetAAPL] none).2).updated
      + ((refresh_prices runRaise 4 [assetNoSym, assetAAPL] none).2).failed
      + ((refresh_prices runRaise 4 [assetNoSym, assetAAPL] none).2).skipped
      = (selectAssets [assetNoSym, assetAAPL] none).length
    ∧ ((toAssetData assetAAPL).id, ((false, none, none) : Outcome))
        ∈ update_multiple_assets runRaise [toAssetData assetAAPL] := by
  have h := C10_fanout_accounting runRaise 4 [assetNoSym, assetAAPL] none (by decide)
  exact ⟨h.2.2, h.2.1 [toAssetData assetAAPL] (toAssetData assetAAPL) (by simp) rfl⟩

end MoneyInOne
